import Mathlib

/-!
Shallow embedding of the Ball-Game simulation core (src/main.rs).

Positions and sizes are modelled over `ℝ` (the source uses `f32`; we idealise
float arithmetic as exact real arithmetic).  The Bevy ECS machinery is made
explicit: the player is an `Option V3` (at most one live player), enemies and
stars are lists, and despawn `Commands` are deferred — they take effect at the
end of the frame, not while a system's loop is still iterating, matching the
engine's command-application sync point.
-/

namespace BallGame

noncomputable section

open scoped Classical

/-- Constants from src/main.rs lines 11-17. -/
def PLAYER_SPEED : ℝ := 500

def PLAYER_SIZE : ℝ := 64

def NUMBER_OF_ENEMIES : ℕ := 4

def ENEMY_SPEED : ℝ := 200

def ENEMY_SIZE : ℝ := 64

def NUMBER_OF_STARS : ℕ := 10

def STAR_SIZE : ℝ := 30

/-- A 2D vector (glam `Vec2`), used for enemy directions. -/
structure V2 where
  x : ℝ
  y : ℝ

/-- A 3D vector (glam `Vec3`), used for `Transform::translation`. -/
structure V3 where
  x : ℝ
  y : ℝ
  z : ℝ

def V3.add (a b : V3) : V3 := ⟨a.x + b.x, a.y + b.y, a.z + b.z⟩

def V3.smul (a : V3) (c : ℝ) : V3 := ⟨a.x * c, a.y * c, a.z * c⟩

/-- glam `Vec3::length`: the Euclidean norm. -/
def V3.length (a : V3) : ℝ := Real.sqrt (a.x ^ 2 + a.y ^ 2 + a.z ^ 2)

/-- glam `Vec3::normalize`: `self * (1 / self.length())`, no zero guard. -/
def V3.normalize (a : V3) : V3 := a.smul (1 / a.length)

/-- glam `Vec3::distance`: `(self - rhs).length()`. -/
def V3.distance (a b : V3) : ℝ := (⟨a.x - b.x, a.y - b.y, a.z - b.z⟩ : V3).length

/-- glam `Vec2::length`. -/
def V2.length (a : V2) : ℝ := Real.sqrt (a.x ^ 2 + a.y ^ 2)

/-- glam `Vec2::normalize`: `self * (1 / self.length())`, no zero guard
(src/main.rs line 115 applies it to a random vector unconditionally). -/
def V2.normalize (a : V2) : V2 := ⟨a.x * (1 / a.length), a.y * (1 / a.length)⟩

/-- Enemy component (src/main.rs lines 43-45) together with its `Transform`. -/
structure Enemy where
  translation : V3
  direction : V2

/-- Star entity: its `Transform` plus a stable entity identity (Bevy `Entity`). -/
structure Star where
  id : ℕ
  translation : V3

/-- Pressed-state of the eight bound keys (Left/A, Right/D, Up/W, Down/S),
the slice of `Input<KeyCode>` that `player_movement` reads. -/
structure KeyboardInput where
  left : Bool
  a : Bool
  right : Bool
  d : Bool
  up : Bool
  w : Bool
  down : Bool
  s : Bool

/-- The direction vector built by `player_movement` (src/main.rs lines 158-177):
unit contributions for each pressed direction (primary OR alternate binding),
normalized when the sum has positive length. -/
def playerDirection (keyboard_input : KeyboardInput) : V3 :=
  let direction : V3 := ⟨0, 0, 0⟩
  let direction := if keyboard_input.left || keyboard_input.a then
    direction.add ⟨-1, 0, 0⟩ else direction
  let direction := if keyboard_input.right || keyboard_input.d then
    direction.add ⟨1, 0, 0⟩ else direction
  let direction := if keyboard_input.up || keyboard_input.w then
    direction.add ⟨0, 1, 0⟩ else direction
  let direction := if keyboard_input.down || keyboard_input.s then
    direction.add ⟨0, -1, 0⟩ else direction
  if direction.length > 0 then direction.normalize else direction

/-- Body of `player_movement` (src/main.rs line 182):
`translation += direction * PLAYER_SPEED * time.delta_seconds()`. -/
def movePlayer (keyboard_input : KeyboardInput) (dt : ℝ) (t : V3) : V3 :=
  t.add ((playerDirection keyboard_input).smul (PLAYER_SPEED * dt))

/-- `player_movement` (src/main.rs lines 146-184): `get_single_mut` succeeds
only when the player exists; otherwise the system is a no-op. -/
def player_movement (keyboard_input : KeyboardInput) (dt : ℝ) (player : Option V3) :
    Option V3 :=
  match player with
  | none => none
  | some t => some (movePlayer keyboard_input dt t)

/-- The per-axis clamp used by both confinement systems
(src/main.rs lines 209-220 and 296-307): `if v < lo { lo } else if v > hi { hi }`. -/
def confineAxis (v lo hi : ℝ) : ℝ :=
  if v < lo then lo else if v > hi then hi else v

/-- Clamp a translation into `[half, dim - half]` on x and y (z untouched). -/
def confineTranslation (size wdt hgt : ℝ) (t : V3) : V3 :=
  let half := size / 2
  let x_min := 0 + half
  let x_max := wdt - half
  let y_min := 0 + half
  let y_max := hgt - half
  ⟨confineAxis t.x x_min x_max, confineAxis t.y y_min y_max, t.z⟩

/-- `confine_player_movement` (src/main.rs lines 187-226). -/
def confine_player_movement (wdt hgt : ℝ) (player : Option V3) : Option V3 :=
  match player with
  | none => none
  | some t => some (confineTranslation PLAYER_SIZE wdt hgt t)

/-- `enemy_movement` (src/main.rs lines 228-234):
`translation += Vec3::new(dir.x, dir.y, 0) * ENEMY_SPEED * dt`. -/
def enemy_movement (dt : ℝ) (enemies : List Enemy) : List Enemy :=
  enemies.map fun e =>
    { e with translation :=
        e.translation.add ((⟨e.direction.x, e.direction.y, 0⟩ : V3).smul (ENEMY_SPEED * dt)) }

/-- One enemy's direction update in `update_enemy_direction`
(src/main.rs lines 249-261): negate a component when the position is outside
that axis range. -/
def bounce (wdt hgt : ℝ) (e : Enemy) : Enemy :=
  let half_enemy_size := ENEMY_SIZE / 2
  let x_min := 0 + half_enemy_size
  let x_max := wdt - half_enemy_size
  let y_min := 0 + half_enemy_size
  let y_max := hgt - half_enemy_size
  let dx := if e.translation.x < x_min ∨ e.translation.x > x_max then
    e.direction.x * (-1) else e.direction.x
  let dy := if e.translation.y < y_min ∨ e.translation.y > y_max then
    e.direction.y * (-1) else e.direction.y
  { e with direction := ⟨dx, dy⟩ }

/-- `update_enemy_direction` (src/main.rs lines 236-278). -/
def update_enemy_direction (wdt hgt : ℝ) (enemies : List Enemy) : List Enemy :=
  enemies.map (bounce wdt hgt)

/-- `confine_enemy_movement` (src/main.rs lines 280-311). -/
def confine_enemy_movement (wdt hgt : ℝ) (enemies : List Enemy) : List Enemy :=
  enemies.map fun e => { e with translation := confineTranslation ENEMY_SIZE wdt hgt e.translation }

/-- The loop body of `enemy_hit_player` (src/main.rs lines 321-331): iterate over
ALL enemies (there is no `break`), and for each enemy closer than
`player_radius + enemy_radius` print the game-over message and issue a despawn
command.  The result counts the emitted game-over events. -/
def gameOverEvents (p : V3) : List Enemy → ℕ
  | [] => 0
  | e :: rest =>
      (if p.distance e.translation < PLAYER_SIZE / 2 + ENEMY_SIZE / 2 then 1 else 0) +
        gameOverEvents p rest

/-- `enemy_hit_player` (src/main.rs lines 313-333): no-op without a player;
otherwise every enemy is tested.  Despawn commands are deferred, so the player
is gone at the end of the frame iff at least one event was emitted. -/
def enemy_hit_player (player : Option V3) (enemies : List Enemy) : Option V3 × ℕ :=
  match player with
  | none => (none, 0)
  | some p =>
      let events := gameOverEvents p enemies
      (if events = 0 then some p else none, events)

/-- `player_hit_star` (src/main.rs lines 335-352): no-op without a player;
otherwise every star closer than `PLAYER_SIZE/2 + STAR_SIZE/2` is despawned
(deferred commands), so the stars that survive the frame are exactly those not
overlapping the player. -/
def player_hit_star (player : Option V3) (stars : List Star) : List Star :=
  match player with
  | none => stars
  | some p =>
      stars.filter fun s =>
        decide (¬ p.distance s.translation < PLAYER_SIZE / 2 + STAR_SIZE / 2)

/-- `spawn_player` (src/main.rs lines 58-82): one player at the window center. -/
def spawn_player (wdt hgt : ℝ) : V3 := ⟨wdt / 2, hgt / 2, 0⟩

/-- `spawn_enemies` (src/main.rs lines 97-121): `NUMBER_OF_ENEMIES` enemies at
`(random * width, random * height)` with direction
`Vec2::new(random, random).normalize()`.  The ambient random source is modelled
as a stream `random : ℕ → ℝ` of draws in `[0, 1)`; each loop iteration consumes
four draws in order. -/
def spawn_enemies (random : ℕ → ℝ) (wdt hgt : ℝ) : List Enemy :=
  (List.range NUMBER_OF_ENEMIES).map fun i =>
    { translation := ⟨random (4 * i) * wdt, random (4 * i + 1) * hgt, 0⟩,
      direction := (⟨random (4 * i + 2), random (4 * i + 3)⟩ : V2).normalize }

/-- `spawn_stars` (src/main.rs lines 123-142): `NUMBER_OF_STARS` stars at
`(random * width, random * height)`; two draws per iteration.  The index of the
loop iteration serves as the star's entity identity. -/
def spawn_stars (random : ℕ → ℝ) (wdt hgt : ℝ) : List Star :=
  (List.range NUMBER_OF_STARS).map fun i =>
    { id := i, translation := ⟨random (2 * i) * wdt, random (2 * i + 1) * hgt, 0⟩ }

/-- The live simulation entities. -/
structure GameState where
  player : Option V3
  enemies : List Enemy
  stars : List Star

/-- One Update tick.  main (src/main.rs line 33) registers the systems as an
unchained tuple; we model the frame as their sequential composition in
registration order (player movement, player confinement, enemy movement,
enemy direction update, enemy confinement, enemy-player collision, player-star
collision), with despawn commands applied at the end-of-frame sync point: the
star check still sees the player despawned by the enemy check in the same
frame. -/
def frameStep (keyboard_input : KeyboardInput) (dt wdt hgt : ℝ) (st : GameState) :
    GameState :=
  let p := confine_player_movement wdt hgt (player_movement keyboard_input dt st.player)
  let es := confine_enemy_movement wdt hgt
    (update_enemy_direction wdt hgt (enemy_movement dt st.enemies))
  let hit := enemy_hit_player p es
  let stars := player_hit_star p st.stars
  { player := hit.1, enemies := es, stars := stars }

/-- Per-frame external inputs: keyboard state, frame delta, window size. -/
structure FrameInput where
  keys : KeyboardInput
  dt : ℝ
  wdt : ℝ
  hgt : ℝ

/-- Run a sequence of frames. -/
def runFrames (inputs : List FrameInput) (st : GameState) : GameState :=
  inputs.foldl (fun acc i => frameStep i.keys i.dt i.wdt i.hgt acc) st

/-- The enemy-only part of a frame, in registration order. -/
def enemyFrame (dt wdt hgt : ℝ) (enemies : List Enemy) : List Enemy :=
  confine_enemy_movement wdt hgt (update_enemy_direction wdt hgt (enemy_movement dt enemies))

/-- Run a sequence of frames over the enemy list alone ((dt, width, height) per
frame). -/
def enemyFrames : List (ℝ × ℝ × ℝ) → List Enemy → List Enemy
  | [], enemies => enemies
  | f :: fs, enemies => enemyFrames fs (enemyFrame f.1 f.2.1 f.2.2 enemies)

end

/-- The confinement target range: position within `[half, dimension - half]`
on both axes. -/
def withinBounds (size wdt hgt : ℝ) (t : V3) : Prop :=
  size / 2 ≤ t.x ∧ t.x ≤ wdt - size / 2 ∧ size / 2 ≤ t.y ∧ t.y ≤ hgt - size / 2

/-- Keyboard state: Right and Up pressed, nothing else. -/
def keysRightUp : KeyboardInput := ⟨false, false, true, false, true, false, false, false⟩

/-- Keyboard state: Right and Down pressed, nothing else. -/
def keysRightDown : KeyboardInput := ⟨false, false, true, false, false, false, true, false⟩

/-- Keyboard state: Left and Up pressed, nothing else. -/
def keysLeftUp : KeyboardInput := ⟨true, false, false, false, true, false, false, false⟩

/-- Keyboard state: Left and Down pressed, nothing else. -/
def keysLeftDown : KeyboardInput := ⟨true, false, false, false, false, false, true, false⟩

/-! ## Helper lemmas -/

theorem confineAxis_bounds (v lo hi : ℝ) (h : lo ≤ hi) :
    lo ≤ confineAxis v lo hi ∧ confineAxis v lo hi ≤ hi := by
  unfold confineAxis
  split_ifs with h1 h2 <;> constructor <;> linarith

theorem confineTranslation_bounds (size wdt hgt : ℝ) (t : V3)
    (h1 : size ≤ wdt) (h2 : size ≤ hgt) :
    withinBounds size wdt hgt (confineTranslation size wdt hgt t) := by
  have hx := confineAxis_bounds t.x (0 + size / 2) (wdt - size / 2) (by linarith)
  have hy := confineAxis_bounds t.y (0 + size / 2) (hgt - size / 2) (by linarith)
  unfold confineTranslation withinBounds
  exact ⟨by linarith [hx.1], by linarith [hx.2], by linarith [hy.1], by linarith [hy.2]⟩

theorem player_hit_star_sublist (player : Option V3) (stars : List Star) :
    List.Sublist (player_hit_star player stars) stars := by
  cases player with
  | none => exact List.Sublist.refl _
  | some p => exact List.filter_sublist _

theorem frameStep_stars_sublist (keyboard_input : KeyboardInput) (dt wdt hgt : ℝ)
    (st : GameState) :
    List.Sublist (frameStep keyboard_input dt wdt hgt st).stars st.stars :=
  player_hit_star_sublist _ _

theorem bounce_direction_length (wdt hgt : ℝ) (e : Enemy) :
    (bounce wdt hgt e).direction.length = e.direction.length := by
  unfold bounce V2.length
  dsimp only
  split_ifs <;> (congr 1 <;> ring)

theorem V2_sq_length (v : V2) : v.length ^ 2 = v.x ^ 2 + v.y ^ 2 :=
  Real.sq_sqrt (by positivity)

theorem V2_normalize_unit (v : V2) (hne : v.length ≠ 0) :
    (V2.normalize v).length = 1 := by
  show Real.sqrt ((v.x * (1 / v.length)) ^ 2 + (v.y * (1 / v.length)) ^ 2) = 1
  have harg : (v.x * (1 / v.length)) ^ 2 + (v.y * (1 / v.length)) ^ 2 = 1 := by
    have hsq := V2_sq_length v
    field_simp
    linarith [hsq]
  rw [harg, Real.sqrt_one]

theorem V3_length_nonneg (a : V3) : 0 ≤ a.length := Real.sqrt_nonneg _

theorem V3_length_smul (a : V3) (c : ℝ) : (a.smul c).length = |c| * a.length := by
  unfold V3.smul V3.length
  rw [show (a.x * c) ^ 2 + (a.y * c) ^ 2 + (a.z * c) ^ 2
      = c ^ 2 * (a.x ^ 2 + a.y ^ 2 + a.z ^ 2) by ring,
    Real.sqrt_mul (sq_nonneg c), Real.sqrt_sq_eq_abs]

theorem V3_normalize_length (a : V3) (h : a.length ≠ 0) : a.normalize.length = 1 := by
  have h0 : 0 < a.length := (V3_length_nonneg a).lt_of_ne (Ne.symm h)
  unfold V3.normalize
  rw [V3_length_smul, abs_of_pos (by positivity), one_div_mul_cancel h]

theorem V3_distance_add (t d : V3) : (t.add d).distance t = d.length := by
  simp only [V3.add, V3.distance, V3.length]
  congr 1
  ring

theorem movePlayer_distance (keyboard_input : KeyboardInput) (dt : ℝ) (t : V3) :
    (movePlayer keyboard_input dt t).distance t =
      |PLAYER_SPEED * dt| * (playerDirection keyboard_input).length := by
  rw [movePlayer, V3_distance_add, V3_length_smul, mul_comm]

theorem diag_length_pos (a b : ℝ) (ha : a ^ 2 = 1) (hb : b ^ 2 = 1) :
    0 < V3.length ⟨a, b, 0⟩ := by
  show (0 : ℝ) < Real.sqrt (a ^ 2 + b ^ 2 + 0 ^ 2)
  rw [Real.sqrt_pos, ha, hb]
  norm_num

theorem diag_direction_length (keyboard_input : KeyboardInput) (a b : ℝ)
    (ha : a ^ 2 = 1) (hb : b ^ 2 = 1)
    (hdir : playerDirection keyboard_input =
      if V3.length ⟨a, b, 0⟩ > 0 then V3.normalize ⟨a, b, 0⟩ else ⟨a, b, 0⟩) :
    (playerDirection keyboard_input).length = 1 := by
  have hpos := diag_length_pos a b ha hb
  rw [hdir, if_pos hpos]
  exact V3_normalize_length _ (ne_of_gt hpos)

/-! ## Claims -/

/-- Claim C7: in a frame with no player entity, every player-requiring system
(player movement, player confinement, enemy-player collision, player-star
collision) is a no-op — the state is unchanged by them and nothing fails —
while the enemy systems (movement, direction update, confinement) still run
normally. -/
theorem no_player_frame_noop (keyboard_input : KeyboardInput) (dt wdt hgt : ℝ)
    (enemies : List Enemy) (stars : List Star) :
    frameStep keyboard_input dt wdt hgt ⟨none, enemies, stars⟩ =
      ⟨none, enemyFrame dt wdt hgt enemies, stars⟩ := rfl

/-- Claim C6: across any sequence of frames the list of live stars is a
sublist of the initial one — the star count is monotonically non-increasing,
and a star identity absent from one frame (removed by the player-star
resolver) is absent from every later frame. -/
theorem star_count_monotone (inputs : List FrameInput) (st : GameState) :
    List.Sublist (runFrames inputs st).stars st.stars ∧
      (runFrames inputs st).stars.length ≤ st.stars.length ∧
      ∀ s, s ∈ (runFrames inputs st).stars → s ∈ st.stars := by
  have key : List.Sublist (runFrames inputs st).stars st.stars := by
    induction inputs generalizing st with
    | nil => exact List.Sublist.refl _
    | cons i rest ih =>
      have hstep : runFrames (i :: rest) st =
          runFrames rest (frameStep i.keys i.dt i.wdt i.hgt st) := rfl
      rw [hstep]
      exact (ih (frameStep i.keys i.dt i.wdt i.hgt st)).trans
        (frameStep_stars_sublist i.keys i.dt i.wdt i.hgt st)
  exact ⟨key, key.length_le, fun s hs => key.subset hs⟩

/-- Claim C2: after the confinement systems run, every live entity's position
lies within `[half_size, dimension - half_size]` on both axes, whenever each
window dimension is at least the entity size. -/
theorem confinement_within_bounds (wdt hgt : ℝ) (player : Option V3) (enemies : List Enemy)
    (hpw : PLAYER_SIZE ≤ wdt) (hph : PLAYER_SIZE ≤ hgt)
    (hew : ENEMY_SIZE ≤ wdt) (heh : ENEMY_SIZE ≤ hgt) :
    (∀ t ∈ confine_player_movement wdt hgt player, withinBounds PLAYER_SIZE wdt hgt t) ∧
      ∀ e ∈ confine_enemy_movement wdt hgt enemies,
        withinBounds ENEMY_SIZE wdt hgt e.translation := by
  constructor
  · intro t ht
    cases player with
    | none => simp [confine_player_movement] at ht
    | some t0 =>
      have heq : t = confineTranslation PLAYER_SIZE wdt hgt t0 := by
        simpa [confine_player_movement, eq_comm] using ht
      rw [heq]
      exact confineTranslation_bounds _ _ _ _ hpw hph
  · intro e he
    simp only [confine_enemy_movement, List.mem_map] at he
    obtain ⟨e0, _, rfl⟩ := he
    exact confineTranslation_bounds _ _ _ _ hew heh

/-- Witness for C2 at a concrete window and out-of-bounds player. -/
theorem confinement_within_bounds_witness :
    (∀ t ∈ confine_player_movement 800 600 (some ⟨1000, -5, 0⟩),
      withinBounds PLAYER_SIZE 800 600 t) ∧
      ∀ e ∈ confine_enemy_movement 800 600 [⟨⟨-3, 900, 0⟩, ⟨1, 0⟩⟩],
        withinBounds ENEMY_SIZE 800 600 e.translation :=
  confinement_within_bounds 800 600 (some ⟨1000, -5, 0⟩) [⟨⟨-3, 900, 0⟩, ⟨1, 0⟩⟩]
    (by norm_num [PLAYER_SIZE]) (by norm_num [PLAYER_SIZE])
    (by norm_num [ENEMY_SIZE]) (by norm_num [ENEMY_SIZE])

/-- Claim C10: the two key bindings of one direction are OR-ed, not summed:
the player's displacement depends only on the disjunction of each direction's
primary and alternate binding, so pressing both bindings of a direction moves
the player exactly as pressing either one alone. -/
theorem key_bindings_or_semantics (k1 k2 : KeyboardInput) (dt : ℝ) (t : V3)
    (h1 : (k1.left || k1.a) = (k2.left || k2.a))
    (h2 : (k1.right || k1.d) = (k2.right || k2.d))
    (h3 : (k1.up || k1.w) = (k2.up || k2.w))
    (h4 : (k1.down || k1.s) = (k2.down || k2.s)) :
    movePlayer k1 dt t = movePlayer k2 dt t := by
  unfold movePlayer playerDirection
  rw [h1, h2, h3, h4]

/-- Witness for C10: Left together with its alternate binding A gives the same
move as Left alone. -/
theorem key_bindings_or_semantics_witness :
    movePlayer ⟨true, true, false, false, false, false, false, false⟩ 1 ⟨0, 0, 0⟩ =
      movePlayer ⟨true, false, false, false, false, false, false, false⟩ 1 ⟨0, 0, 0⟩ :=
  key_bindings_or_semantics _ _ 1 ⟨0, 0, 0⟩ rfl rfl rfl rfl

/-- Claim C3: an enemy direction that is unit-length stays unit-length across
any sequence of frames — `enemy_movement` and `confine_enemy_movement` do not
touch the direction, and the bounce reflections in `update_enemy_direction`
only negate components, preserving the magnitude. -/
theorem enemy_direction_unit_invariant (frames : List (ℝ × ℝ × ℝ)) (enemies : List Enemy)
    (hunit : ∀ e ∈ enemies, e.direction.length = 1) :
    ∀ e ∈ enemyFrames frames enemies, e.direction.length = 1 := by
  induction frames generalizing enemies with
  | nil => exact hunit
  | cons f fs ih =>
    refine ih _ ?_
    intro e he
    simp only [enemyFrame, confine_enemy_movement, update_enemy_direction, enemy_movement,
      List.map_map, List.mem_map, Function.comp] at he
    obtain ⟨e0, he0, rfl⟩ := he
    show (bounce f.2.1 f.2.2 _).direction.length = 1
    rw [bounce_direction_length]
    exact hunit e0 he0

/-- Witness for C3: one frame at window 800x600 applied to an enemy with the
unit direction (1, 0). -/
theorem enemy_direction_unit_invariant_witness :
    V2.length ⟨1, 0⟩ = 1 ∧
      ∀ e ∈ enemyFrames [(1, 800, 600)] [⟨⟨0, 0, 0⟩, ⟨1, 0⟩⟩], e.direction.length = 1 := by
  have hlen : V2.length ⟨1, 0⟩ = 1 := by
    show Real.sqrt ((1 : ℝ) ^ 2 + 0 ^ 2) = 1
    rw [show ((1 : ℝ) ^ 2 + 0 ^ 2) = 1 by norm_num, Real.sqrt_one]
  refine ⟨hlen, enemy_direction_unit_invariant [(1, 800, 600)] [⟨⟨0, 0, 0⟩, ⟨1, 0⟩⟩] ?_⟩
  intro e he
  rw [List.mem_singleton] at he
  rw [he]
  exact hlen

/-- Claim C9: enemy spawning normalizes the random direction with no zero
guard: any random vector of nonzero length yields a unit direction, while the
zero vector yields the degenerate direction (0, 0) — the real-arithmetic image
of the float NaN outcome — which violates the unit-length invariant. -/
theorem spawn_normalize_no_guard (v : V2) :
    (v.length ≠ 0 → (V2.normalize v).length = 1) ∧
      V2.normalize ⟨0, 0⟩ = ⟨0, 0⟩ ∧ (V2.normalize ⟨0, 0⟩).length ≠ 1 := by
  refine ⟨fun hne => V2_normalize_unit v hne, ?_, ?_⟩
  · unfold V2.normalize
    simp
  · have hz : V2.normalize ⟨0, 0⟩ = ⟨0, 0⟩ := by unfold V2.normalize; simp
    rw [hz]
    show Real.sqrt ((0 : ℝ) ^ 2 + 0 ^ 2) ≠ 1
    rw [show ((0 : ℝ) ^ 2 + 0 ^ 2) = 0 by norm_num, Real.sqrt_zero]
    norm_num

theorem playerDirection_keysRightUp_eq :
    playerDirection keysRightUp =
      if V3.length ⟨1, 1, 0⟩ > 0 then V3.normalize ⟨1, 1, 0⟩ else ⟨1, 1, 0⟩ := by
  unfold playerDirection keysRightUp
  norm_num [V3.add]

theorem playerDirection_keysRightDown_eq :
    playerDirection keysRightDown =
      if V3.length ⟨1, -1, 0⟩ > 0 then V3.normalize ⟨1, -1, 0⟩ else ⟨1, -1, 0⟩ := by
  unfold playerDirection keysRightDown
  norm_num [V3.add]

theorem playerDirection_keysLeftUp_eq :
    playerDirection keysLeftUp =
      if V3.length ⟨-1, 1, 0⟩ > 0 then V3.normalize ⟨-1, 1, 0⟩ else ⟨-1, 1, 0⟩ := by
  unfold playerDirection keysLeftUp
  norm_num [V3.add]

theorem playerDirection_keysLeftDown_eq :
    playerDirection keysLeftDown =
      if V3.length ⟨-1, -1, 0⟩ > 0 then V3.normalize ⟨-1, -1, 0⟩ else ⟨-1, -1, 0⟩ := by
  unfold playerDirection keysLeftDown
  norm_num [V3.add]

/-- Claim C5: with two perpendicular directional inputs pressed (each of the
four diagonal combinations), the player moves a Euclidean distance of exactly
`PLAYER_SPEED * dt`, the same as a single axial input, because the summed
direction vector is normalized before scaling. -/
theorem diagonal_speed_eq_axial (dt : ℝ) (hdt : 0 < dt) (t : V3) :
    (movePlayer keysRightUp dt t).distance t = PLAYER_SPEED * dt ∧
      (movePlayer keysRightDown dt t).distance t = PLAYER_SPEED * dt ∧
      (movePlayer keysLeftUp dt t).distance t = PLAYER_SPEED * dt ∧
      (movePlayer keysLeftDown dt t).distance t = PLAYER_SPEED * dt := by
  have habs : |PLAYER_SPEED * dt| = PLAYER_SPEED * dt := by
    have : (0 : ℝ) < PLAYER_SPEED * dt := by
      unfold PLAYER_SPEED
      positivity
    exact abs_of_pos this
  have h1 : (1 : ℝ) ^ 2 = 1 := one_pow 2
  have hm1 : (-1 : ℝ) ^ 2 = 1 := by norm_num
  refine ⟨?_, ?_, ?_, ?_⟩ <;> rw [movePlayer_distance, habs]
  · rw [diag_direction_length keysRightUp 1 1 h1 h1 playerDirection_keysRightUp_eq, mul_one]
  · rw [diag_direction_length keysRightDown 1 (-1) h1 hm1 playerDirection_keysRightDown_eq,
      mul_one]
  · rw [diag_direction_length keysLeftUp (-1) 1 hm1 h1 playerDirection_keysLeftUp_eq, mul_one]
  · rw [diag_direction_length keysLeftDown (-1) (-1) hm1 hm1 playerDirection_keysLeftDown_eq,
      mul_one]

/-- Witness for C5 at dt = 1 from the origin. -/
theorem diagonal_speed_eq_axial_witness :
    (movePlayer keysRightUp 1 ⟨0, 0, 0⟩).distance ⟨0, 0, 0⟩ = PLAYER_SPEED * 1 ∧
      (movePlayer keysRightDown 1 ⟨0, 0, 0⟩).distance ⟨0, 0, 0⟩ = PLAYER_SPEED * 1 ∧
      (movePlayer keysLeftUp 1 ⟨0, 0, 0⟩).distance ⟨0, 0, 0⟩ = PLAYER_SPEED * 1 ∧
      (movePlayer keysLeftDown 1 ⟨0, 0, 0⟩).distance ⟨0, 0, 0⟩ = PLAYER_SPEED * 1 :=
  diagonal_speed_eq_axial 1 (by norm_num) ⟨0, 0, 0⟩

theorem rand_scaled_mem (r dim : ℝ) (h0 : 0 ≤ r) (h1 : r < 1) (hd : 0 ≤ dim) :
    0 ≤ r * dim ∧ r * dim ≤ dim := by
  constructor
  · exact mul_nonneg h0 hd
  · calc r * dim ≤ 1 * dim := mul_le_mul_of_nonneg_right (le_of_lt h1) hd
      _ = dim := one_mul _

/-- Claim C8: startup spawning creates one player at the window center,
exactly `NUMBER_OF_ENEMIES = 4` enemies and `NUMBER_OF_STARS = 10` stars, and
every spawned enemy and star position lies in `[0, w] x [0, h]`, for any draws
of the random source in `[0, 1)` and nonnegative window dimensions. -/
theorem spawn_counts_and_bounds (random : ℕ → ℝ) (wdt hgt : ℝ)
    (hr : ∀ i, 0 ≤ random i ∧ random i < 1) (hw : 0 ≤ wdt) (hh : 0 ≤ hgt) :
    spawn_player wdt hgt = ⟨wdt / 2, hgt / 2, 0⟩ ∧
      (spawn_enemies random wdt hgt).length = 4 ∧
      (spawn_stars random wdt hgt).length = 10 ∧
      (∀ e ∈ spawn_enemies random wdt hgt,
        0 ≤ e.translation.x ∧ e.translation.x ≤ wdt ∧
          0 ≤ e.translation.y ∧ e.translation.y ≤ hgt) ∧
      ∀ s ∈ spawn_stars random wdt hgt,
        0 ≤ s.translation.x ∧ s.translation.x ≤ wdt ∧
          0 ≤ s.translation.y ∧ s.translation.y ≤ hgt := by
  refine ⟨rfl, by simp [spawn_enemies, NUMBER_OF_ENEMIES],
    by simp [spawn_stars, NUMBER_OF_STARS], ?_, ?_⟩
  · intro e he
    simp only [spawn_enemies, List.mem_map, List.mem_range] at he
    obtain ⟨i, _, rfl⟩ := he
    have hx := rand_scaled_mem (random (4 * i)) wdt (hr (4 * i)).1 (hr (4 * i)).2 hw
    have hy := rand_scaled_mem (random (4 * i + 1)) hgt (hr (4 * i + 1)).1 (hr (4 * i + 1)).2 hh
    exact ⟨hx.1, hx.2, hy.1, hy.2⟩
  · intro s hs
    simp only [spawn_stars, List.mem_map, List.mem_range] at hs
    obtain ⟨i, _, rfl⟩ := hs
    have hx := rand_scaled_mem (random (2 * i)) wdt (hr (2 * i)).1 (hr (2 * i)).2 hw
    have hy := rand_scaled_mem (random (2 * i + 1)) hgt (hr (2 * i + 1)).1 (hr (2 * i + 1)).2 hh
    exact ⟨hx.1, hx.2, hy.1, hy.2⟩

/-- Witness for C8: an 800x600 window with every random draw equal to 1/2. -/
theorem spawn_counts_and_bounds_witness :
    spawn_player 800 600 = ⟨(800 : ℝ) / 2, (600 : ℝ) / 2, 0⟩ ∧
      (spawn_enemies (fun _ => 1 / 2) 800 600).length = 4 ∧
      (spawn_stars (fun _ => 1 / 2) 800 600).length = 10 ∧
      (∀ e ∈ spawn_enemies (fun _ => 1 / 2) 800 600,
        0 ≤ e.translation.x ∧ e.translation.x ≤ 800 ∧
          0 ≤ e.translation.y ∧ e.translation.y ≤ 600) ∧
      ∀ s ∈ spawn_stars (fun _ => 1 / 2) 800 600,
        0 ≤ s.translation.x ∧ s.translation.x ≤ 800 ∧
          0 ≤ s.translation.y ∧ s.translation.y ≤ 600 :=
  spawn_counts_and_bounds (fun _ => 1 / 2) 800 600
    (fun _ => by norm_num) (by norm_num) (by norm_num)

/-- Claim C1 fails on the code: `enemy_hit_player` iterates over ALL enemies
with no early exit, so with two enemies overlapping the player the game-over
message is emitted twice, not exactly once.  Player at (100, 100), both
enemies at (110, 100): distance 10 < 64 for each. -/
theorem enemy_hit_player_counterexample :
    (enemy_hit_player (some ⟨100, 100, 0⟩)
      [⟨⟨110, 100, 0⟩, ⟨1, 0⟩⟩, ⟨⟨110, 100, 0⟩, ⟨0, 1⟩⟩]).2 = 2 ∧ (2 : ℕ) ≠ 1 := by
  have hd : (⟨100, 100, 0⟩ : V3).distance ⟨110, 100, 0⟩ < PLAYER_SIZE / 2 + ENEMY_SIZE / 2 := by
    have h10 : (⟨100, 100, 0⟩ : V3).distance ⟨110, 100, 0⟩ = 10 := by
      show Real.sqrt (((100 : ℝ) - 110) ^ 2 + ((100 : ℝ) - 100) ^ 2 + ((0 : ℝ) - 0) ^ 2) = 10
      rw [show ((100 : ℝ) - 110) ^ 2 + ((100 : ℝ) - 100) ^ 2 + ((0 : ℝ) - 0) ^ 2
          = 10 ^ 2 by norm_num]
      exact Real.sqrt_sq (by norm_num)
    rw [h10]
    unfold PLAYER_SIZE ENEMY_SIZE
    norm_num
  refine ⟨?_, by norm_num⟩
  show gameOverEvents ⟨100, 100, 0⟩ [⟨⟨110, 100, 0⟩, ⟨1, 0⟩⟩, ⟨⟨110, 100, 0⟩, ⟨0, 1⟩⟩] = 2
  rw [gameOverEvents, gameOverEvents, gameOverEvents]
  rw [if_pos hd]

/-- Claim C1 amended: in the player-enemy collision system every enemy is
checked (no short-circuit): the game-over event is emitted once per enemy
whose distance to the player is below `player_radius + enemy_radius`, and the
player is removed (at the deferred-command sync point) iff at least one enemy
qualifies. -/
theorem enemy_hit_player_events_count (p : V3) (enemies : List Enemy) :
    (enemy_hit_player (some p) enemies).2 =
      enemies.countP
        (fun e => decide (p.distance e.translation < PLAYER_SIZE / 2 + ENEMY_SIZE / 2)) ∧
      ((enemy_hit_player (some p) enemies).1 = none ↔
        ∃ e ∈ enemies, p.distance e.translation < PLAYER_SIZE / 2 + ENEMY_SIZE / 2) := by
  have hcount : ∀ l : List Enemy, gameOverEvents p l =
      l.countP (fun e => decide (p.distance e.translation < PLAYER_SIZE / 2 + ENEMY_SIZE / 2)) := by
    intro l
    induction l with
    | nil => rfl
    | cons e rest ih =>
      rw [gameOverEvents, List.countP_cons, ih]
      by_cases h : p.distance e.translation < PLAYER_SIZE / 2 + ENEMY_SIZE / 2
      · simp [h, Nat.add_comm]
      · simp [h]
  have hzero : ∀ l : List Enemy, (gameOverEvents p l = 0 ↔
      ∀ e ∈ l, ¬ p.distance e.translation < PLAYER_SIZE / 2 + ENEMY_SIZE / 2) := by
    intro l
    induction l with
    | nil => simp [gameOverEvents]
    | cons e rest ih =>
      rw [gameOverEvents]
      by_cases h : p.distance e.translation < PLAYER_SIZE / 2 + ENEMY_SIZE / 2
      · rw [if_pos h]
        constructor
        · intro h0
          exact absurd h0 (by omega)
        · intro hall
          exact absurd h (hall e (List.mem_cons_self e rest))
      · rw [if_neg h, Nat.zero_add, ih]
        constructor
        · intro hall e2 he2
          rcases List.mem_cons.mp he2 with rfl | hmem
          · exact h
          · exact hall e2 hmem
        · intro hall e2 he2
          exact hall e2 (List.mem_cons_of_mem e he2)
  constructor
  · exact hcount enemies
  · show (if gameOverEvents p enemies = 0 then some p else none) = none ↔ _
    by_cases h0 : gameOverEvents p enemies = 0
    · rw [if_pos h0]
      constructor
      · intro hcontra
        exact absurd hcontra (Option.some_ne_none p)
      · rintro ⟨e, he, hlt⟩
        exact absurd hlt ((hzero enemies).mp h0 e he)
    · rw [if_neg h0]
      constructor
      · intro _
        by_contra hne
        exact h0 ((hzero enemies).mpr fun e he hlt => hne ⟨e, he, hlt⟩)
      · intro _
        rfl

end BallGame
